import Mathlib

/-!
Verification of the instrumentation layer of `qtdata/influxdb`:

* `src/authz/src/instrumentation.rs` — `AuthorizerInstrumentation`, a latency
  decorator over an `Authorizer`'s `permissions` call, recording the elapsed
  duration into a success- or error-labelled histogram.
* `src/tracker/src/disk_protection.rs` — `InstrumentedDiskProtection`, a
  background sampler publishing the available-disk-space percentage of the
  mount backing a tracked directory to a gauge, with start/stop lifecycle.

The embedding is shallow: histograms are lists of recorded durations (the
sample count is the list length), instants are naturals, the disk list is an
explicit value, and the spawned-task machinery is a set of runnable task ids.
-/

namespace Authz

/-- Shallow embedding of `Instant::checked_duration_since`: `some (end - start)`
when the end instant is not earlier than the start, `none` otherwise. Instants
are modelled as naturals. -/
def checked_duration_since (t_end t_start : Nat) : Option Nat :=
  if t_start ≤ t_end then some (t_end - t_start) else none

/-- The two `DurationHistogram` recorders held by `AuthorizerInstrumentation`,
each modelled as the list of durations recorded so far (most recent first);
`sample_count` is the list length. Field names follow the source struct. -/
structure InstrumentationState where
  ioxauth_rpc_duration_success : List Nat
  ioxauth_rpc_duration_error : List Nat
  deriving Repr, DecidableEq

/-- `DurationHistogram::record`: one observation appended to the histogram. -/
def record (h : List Nat) (delta : Nat) : List Nat :=
  delta :: h

/-- Shallow embedding of `AuthorizerInstrumentation::permissions`.

The inner `Authorizer` is a function from the (token, permission-list)
arguments to its `Result`; the clock is made explicit by the two instants
`t_start` (read before the inner call) and `t_end` (read after it).  The
function returns the result handed back to the caller together with the
updated histogram state, mirroring the source:

* call the inner authorizer with the identical arguments;
* if `checked_duration_since` yields a delta, record it into the success
  histogram on `Ok` and into the error histogram on `Err`;
* return the inner result unchanged. -/
def permissions {Tok Perm Err : Type}
    (inner : Option Tok → List Perm → Except Err (List Perm))
    (token : Option Tok) (perms : List Perm)
    (t_start t_end : Nat) (st : InstrumentationState) :
    Except Err (List Perm) × InstrumentationState :=
  let res := inner token perms
  let st' :=
    match checked_duration_since t_end t_start with
    | some delta =>
      match res with
      | Except.ok _ =>
        { st with ioxauth_rpc_duration_success :=
            record st.ioxauth_rpc_duration_success delta }
      | Except.error _ =>
        { st with ioxauth_rpc_duration_error :=
            record st.ioxauth_rpc_duration_error delta }
    | none => st
  (res, st')

end Authz

namespace Authz

/-- C1: `AuthorizerInstrumentation::permissions` returns exactly the inner
authorizer's result for the identical arguments — pure pass-through, no
translation, mutation or retry by the decorator. -/
theorem permissions_pass_through {Tok Perm Err : Type}
    (inner : Option Tok → List Perm → Except Err (List Perm))
    (token : Option Tok) (perms : List Perm)
    (t_start t_end : Nat) (st : InstrumentationState) :
    (permissions inner token perms t_start t_end st).1 = inner token perms := by
  simp only [permissions]

/-- C2: when the clock delta is measurable (`t_start ≤ t_end`), exactly one
observation is recorded, into the histogram chosen by the `Result`
discriminant: on `Ok` the success histogram grows by one sample and the error
histogram is unchanged; on `Err` the error histogram grows by one sample and
the success histogram is unchanged. -/
theorem permissions_records_once_by_discriminant {Tok Perm Err : Type}
    (inner : Option Tok → List Perm → Except Err (List Perm))
    (token : Option Tok) (perms : List Perm)
    (t_start t_end : Nat) (st : InstrumentationState)
    (hmono : t_start ≤ t_end) :
    ((∃ v, inner token perms = Except.ok v) →
      (permissions inner token perms t_start t_end st).2.ioxauth_rpc_duration_success.length
        = st.ioxauth_rpc_duration_success.length + 1 ∧
      (permissions inner token perms t_start t_end st).2.ioxauth_rpc_duration_error
        = st.ioxauth_rpc_duration_error) ∧
    ((∃ e, inner token perms = Except.error e) →
      (permissions inner token perms t_start t_end st).2.ioxauth_rpc_duration_error.length
        = st.ioxauth_rpc_duration_error.length + 1 ∧
      (permissions inner token perms t_start t_end st).2.ioxauth_rpc_duration_success
        = st.ioxauth_rpc_duration_success) := by
  constructor
  · rintro ⟨v, hv⟩
    simp [permissions, checked_duration_since, hmono, hv, record]
  · rintro ⟨e, he⟩
    simp [permissions, checked_duration_since, hmono, he, record]

/-- C2 witness: a concrete successful call with a measurable delta bumps the
success histogram by one and leaves the error histogram alone. -/
theorem permissions_records_once_by_discriminant_witness :
    ((∃ v, (fun (_ : Option Nat) (_ : List Nat) =>
        (Except.ok [7] : Except Nat (List Nat))) (none : Option Nat) [] = Except.ok v) →
      (permissions (fun _ _ => (Except.ok [7] : Except Nat (List Nat)))
          (none : Option Nat) [] 2 5 ⟨[], []⟩).2.ioxauth_rpc_duration_success.length
        = ([] : List Nat).length + 1 ∧
      (permissions (fun _ _ => (Except.ok [7] : Except Nat (List Nat)))
          (none : Option Nat) [] 2 5 ⟨[], []⟩).2.ioxauth_rpc_duration_error = []) ∧
    ((∃ e, (fun (_ : Option Nat) (_ : List Nat) =>
        (Except.ok [7] : Except Nat (List Nat))) (none : Option Nat) [] = Except.error e) →
      (permissions (fun _ _ => (Except.ok [7] : Except Nat (List Nat)))
          (none : Option Nat) [] 2 5 ⟨[], []⟩).2.ioxauth_rpc_duration_error.length
        = ([] : List Nat).length + 1 ∧
      (permissions (fun _ _ => (Except.ok [7] : Except Nat (List Nat)))
          (none : Option Nat) [] 2 5 ⟨[], []⟩).2.ioxauth_rpc_duration_success = []) :=
  permissions_records_once_by_discriminant
    (fun _ _ => (Except.ok [7] : Except Nat (List Nat))) (none : Option Nat) [] 2 5 ⟨[], []⟩
    (by decide)

/-- C3: when the end instant is earlier than the start instant the delta is
unmeasurable, and neither histogram records an observation: the whole
instrumentation state is unchanged (in particular no zero or negative
duration is recorded). -/
theorem permissions_skips_nonmonotonic_clock {Tok Perm Err : Type}
    (inner : Option Tok → List Perm → Except Err (List Perm))
    (token : Option Tok) (perms : List Perm)
    (t_start t_end : Nat) (st : InstrumentationState)
    (hskew : t_end < t_start) :
    (permissions inner token perms t_start t_end st).2 = st := by
  have h : ¬ t_start ≤ t_end := Nat.not_le.mpr hskew
  cases hres : inner token perms <;>
    simp [permissions, checked_duration_since, h, hres]

/-- C3 witness: a concrete call whose end instant precedes its start instant
leaves the concrete instrumentation state untouched. -/
theorem permissions_skips_nonmonotonic_clock_witness :
    (permissions (fun _ _ => (Except.ok [7] : Except Nat (List Nat)))
        (none : Option Nat) [] 9 4 ⟨[3], [5]⟩).2 = ⟨[3], [5]⟩ :=
  permissions_skips_nonmonotonic_clock
    (fun _ _ => (Except.ok [7] : Except Nat (List Nat))) (none : Option Nat) [] 9 4 ⟨[3], [5]⟩
    (by decide)

end Authz

namespace DiskProtection

/-- A mounted disk as reported by `sysinfo`, after refresh: its mount point
(the components of an absolute path, `[]` denoting the root `/`), and its
available and total space in bytes. -/
structure Disk where
  mount_point : List String
  available_space : Nat
  total_space : Nat
  deriving Repr, DecidableEq

/-- Maximum value of a `u64`, the saturation bound of Rust's `as u64` cast. -/
def U64MAX : Nat := 2 ^ 64 - 1

/-- `f64::round` on a non-negative value: round half away from zero, which for
non-negative arguments is `⌊q + 1/2⌋`. -/
def roundHalfUp (q : ℚ) : Int :=
  ⌊q + 1 / 2⌋

/-- Shallow embedding of the percentage computation
`((available_disk as f64) / (total_disk as f64) * 100.0).round() as u64`.

The `f64` arithmetic is embedded over `ℚ` with the IEEE-754 special cases made
explicit: when `total = 0` the division yields NaN (if `available = 0`, and
the saturating `as u64` cast of NaN is `0`) or `+∞` (if `available ≠ 0`, and
the saturating cast of `+∞` is `u64::MAX`); otherwise the quotient is exact
rational arithmetic, rounded half away from zero and clamped by the
saturating cast. -/
def availableDiskPercent (available_disk total_disk : Nat) : Nat :=
  if total_disk = 0 then
    if available_disk = 0 then 0 else U64MAX
  else
    min U64MAX (roundHalfUp ((available_disk : ℚ) / (total_disk : ℚ) * 100)).toNat

/-- The upward walk of `measure_available_disk_space_percent`: starting from
the tracked directory, look for a disk whose mount point equals the current
candidate path; on failure pop the last path component (`PathBuf::pop`) and
retry, giving up when the pop fails (the candidate is already the root `[]`).
Returns the first matching disk in disk-list order, as `Iterator::find` does. -/
def findMount (disks : List Disk) : List String → Option Disk
  | [] => disks.find? (fun d => d.mount_point == ([] : List String))
  | p :: ps =>
    match disks.find? (fun d => d.mount_point == p :: ps) with
    | some d => some d
    | none => findMount disks (p :: ps).dropLast
termination_by p => p.length
decreasing_by simp [List.dropLast_cons_of_ne_nil]

/-- The candidate paths the walk visits, in order: the directory, its parent,
…, down to the root `[]`. -/
def mountCandidates : List String → List (List String)
  | [] => [[]]
  | p :: ps => (p :: ps) :: mountCandidates (p :: ps).dropLast
termination_by p => p.length
decreasing_by simp [List.dropLast_cons_of_ne_nil]

/-- Shallow embedding of
`DiskProtectionMetrics::measure_available_disk_space_percent` for one tick:
given the refreshed disk list, the tracked directory and the current gauge
value (`none` when the gauge was never set), return the gauge value after the
tick.  If the walk finds a disk the gauge is set to the computed percentage;
otherwise the gauge is left untouched, no error is raised and no sentinel is
written. -/
def measure_available_disk_space_percent
    (disks : List Disk) (directory : List String) (gauge : Option Nat) :
    Option Nat :=
  match findMount disks directory with
  | some disk => some (availableDiskPercent disk.available_space disk.total_space)
  | none => gauge

/-- The scheduler state visible to the sampler: the set of task ids that are
still runnable (spawned and not aborted), as a list. -/
structure TaskWorld where
  runnable : List Nat
  deriving Repr, DecidableEq

/-- The mutable state of `InstrumentedDiskProtection`: the optional
`JoinHandle` of the background task, modelled by the task's id. -/
structure InstrumentedDiskProtection where
  background_task : Option Nat
  deriving Repr, DecidableEq

/-- Shallow embedding of `InstrumentedDiskProtection::start`: spawn the
background task (a fresh task id becomes runnable) and store its handle in
`background_task`. -/
def start (w : TaskWorld) (_s : InstrumentedDiskProtection) (newId : Nat) :
    TaskWorld × InstrumentedDiskProtection :=
  (⟨newId :: w.runnable⟩, ⟨some newId⟩)

/-- Shallow embedding of `InstrumentedDiskProtection::stop`: if a task handle
is held, abort the task (remove it from the runnable set) and clear the
stored handle; otherwise do nothing. -/
def stop (w : TaskWorld) (s : InstrumentedDiskProtection) :
    TaskWorld × InstrumentedDiskProtection :=
  match s.background_task with
  | some t => (⟨w.runnable.erase t⟩, ⟨none⟩)
  | none => (w, s)

/-- Shallow embedding of `Drop for InstrumentedDiskProtection`: the
destructor simply calls `stop`. -/
def dropSampler (w : TaskWorld) (s : InstrumentedDiskProtection) :
    TaskWorld × InstrumentedDiskProtection :=
  stop w s

/-- One scheduler tick of the background task with id `taskId`: the task can
update the gauge only while it is runnable; an aborted (or never-spawned)
task leaves the gauge as is. -/
def tickGauge (w : TaskWorld) (taskId : Nat)
    (disks : List Disk) (directory : List String) (gauge : Option Nat) :
    Option Nat :=
  if taskId ∈ w.runnable then
    measure_available_disk_space_percent disks directory gauge
  else gauge

end DiskProtection

namespace DiskProtection

/-- C5: `stop` is idempotent and safe without a running task: a second `stop`
changes nothing (no double-abort), and `stop` with no stored handle is a
no-op. -/
theorem stop_idempotent (w : TaskWorld) (s : InstrumentedDiskProtection) :
    stop (stop w s).1 (stop w s).2 = stop w s
    ∧ (s.background_task = none → stop w s = (w, s)) := by
  cases s with
  | mk bt =>
    cases bt with
    | none => simp [stop]
    | some t => simp [stop]

/-- C5 witness: stopping a concrete sampler holding task `5` and then
stopping again yields the same state, with the task aborted exactly once. -/
theorem stop_idempotent_witness :
    stop (stop ⟨[5, 8]⟩ ⟨some 5⟩).1 (stop ⟨[5, 8]⟩ ⟨some 5⟩).2 = stop ⟨[5, 8]⟩ ⟨some 5⟩
    ∧ ((⟨some 5⟩ : InstrumentedDiskProtection).background_task = none →
        stop ⟨[5, 8]⟩ ⟨some 5⟩ = (⟨[5, 8]⟩, ⟨some 5⟩)) :=
  stop_idempotent ⟨[5, 8]⟩ ⟨some 5⟩

/-- C4: dropping a started sampler behaves exactly like `stop`: the
destruction path is the same function as `stop`, the spawned task is no
longer runnable afterwards, and no further gauge update can occur on any
subsequent tick of that task. -/
theorem drop_after_start_behaves_like_stop
    (w : TaskWorld) (s : InstrumentedDiskProtection) (newId : Nat)
    (hfresh : newId ∉ w.runnable) :
    dropSampler (start w s newId).1 (start w s newId).2
      = stop (start w s newId).1 (start w s newId).2
    ∧ newId ∉ (dropSampler (start w s newId).1 (start w s newId).2).1.runnable
    ∧ ∀ disks directory gauge,
        tickGauge (dropSampler (start w s newId).1 (start w s newId).2).1
          newId disks directory gauge = gauge := by
  refine ⟨rfl, ?_, ?_⟩
  · simpa [dropSampler, start, stop, List.erase_cons_head] using hfresh
  · intro disks directory gauge
    simp [dropSampler, start, stop, tickGauge, List.erase_cons_head, hfresh]

/-- C4 witness: a concrete sampler started with fresh task id `0` and then
dropped leaves task `0` unrunnable and every subsequent tick without a gauge
update. -/
theorem drop_after_start_behaves_like_stop_witness :
    dropSampler (start ⟨[]⟩ ⟨none⟩ 0).1 (start ⟨[]⟩ ⟨none⟩ 0).2
      = stop (start ⟨[]⟩ ⟨none⟩ 0).1 (start ⟨[]⟩ ⟨none⟩ 0).2
    ∧ 0 ∉ (dropSampler (start ⟨[]⟩ ⟨none⟩ 0).1 (start ⟨[]⟩ ⟨none⟩ 0).2).1.runnable
    ∧ ∀ disks directory gauge,
        tickGauge (dropSampler (start ⟨[]⟩ ⟨none⟩ 0).1 (start ⟨[]⟩ ⟨none⟩ 0).2).1
          0 disks directory gauge = gauge :=
  drop_after_start_behaves_like_stop ⟨[]⟩ ⟨none⟩ 0 (by simp)

/-- C6: whenever the upward walk finds a matching disk, the tick publishes
exactly `round(available / total * 100)` as the gauge value; in particular a
disk with 50 bytes available of 200 total publishes 25. -/
theorem measure_sets_rounded_percent
    (disks : List Disk) (directory : List String) (gauge : Option Nat)
    (d : Disk) (h : findMount disks directory = some d) :
    measure_available_disk_space_percent disks directory gauge
      = some (availableDiskPercent d.available_space d.total_space)
    ∧ availableDiskPercent 50 200 = 25 := by
  constructor
  · simp [measure_available_disk_space_percent, h]
  · norm_num [availableDiskPercent, roundHalfUp, U64MAX]
    decide

/-- C6 witness: a concrete tick on a disk list whose `/data` mount has 50 of
200 bytes available sets the gauge to 25. -/
theorem measure_sets_rounded_percent_witness :
    (measure_available_disk_space_percent
        [⟨["data"], 50, 200⟩] ["data", "wal"] none
      = some (availableDiskPercent 50 200)
    ∧ availableDiskPercent 50 200 = 25) :=
  measure_sets_rounded_percent [⟨["data"], 50, 200⟩] ["data", "wal"] none
    ⟨["data"], 50, 200⟩ (by simp [findMount])

/-- C7: when no disk matches any candidate along the tracked directory's
ancestry, a tick leaves the gauge at its previous value (including `none`
when it was never set): no sentinel, no error, no termination. -/
theorem measure_leaves_gauge_without_mount
    (disks : List Disk) (directory : List String) (gauge : Option Nat)
    (h : findMount disks directory = none) :
    measure_available_disk_space_percent disks directory gauge = gauge := by
  simp [measure_available_disk_space_percent, h]

/-- C7 witness: a concrete tick on a directory whose ancestry matches no
mount point leaves a previously set gauge value of 42 untouched. -/
theorem measure_leaves_gauge_without_mount_witness :
    measure_available_disk_space_percent
      [⟨["other"], 1, 2⟩] ["data"] (some 42) = some 42 :=
  measure_leaves_gauge_without_mount [⟨["other"], 1, 2⟩] ["data"] (some 42)
    (by simp [findMount])

end DiskProtection

namespace DiskProtection

/-- C10: on a tick whose matched disk reports `total_space = 0`, the update
is neither skipped nor a panic: the gauge is set, to `0` when
`available_space = 0` (the `0.0 / 0.0` NaN saturates to `0` under `as u64`)
and to `u64::MAX` otherwise (the `x / 0.0` infinity saturates upward). -/
theorem measure_zero_total_saturates
    (disks : List Disk) (directory : List String) (gauge : Option Nat)
    (d : Disk) (h : findMount disks directory = some d)
    (h0 : d.total_space = 0) :
    measure_available_disk_space_percent disks directory gauge
      = some (if d.available_space = 0 then 0 else U64MAX) := by
  simp [measure_available_disk_space_percent, h, availableDiskPercent, h0]

/-- C10 witness: a concrete tick on a matched disk reporting 0 available of
0 total bytes sets the gauge to 0 rather than skipping the update. -/
theorem measure_zero_total_saturates_witness :
    measure_available_disk_space_percent
      [⟨["data"], 0, 0⟩] ["data", "wal"] (some 99)
      = some (if (0 : Nat) = 0 then 0 else U64MAX) :=
  measure_zero_total_saturates [⟨["data"], 0, 0⟩] ["data", "wal"] (some 99)
    ⟨["data"], 0, 0⟩ (by simp [findMount]) rfl

/-- C8: the mount walk visits exactly the directory's ancestry (directory,
parent, …, root) in order, returning the first matching disk at the first
candidate some disk's mount point equals, and returns `none` exactly when
every candidate down to the root matches no disk. -/
theorem findMount_walks_ancestry (disks : List Disk) (path : List String) :
    findMount disks path
      = (mountCandidates path).findSome?
          (fun c => disks.find? (fun d => d.mount_point == c))
    ∧ (findMount disks path = none ↔
        ∀ c ∈ mountCandidates path, ∀ d ∈ disks, d.mount_point ≠ c) := by
  have main : ∀ (n : Nat) (p : List String), p.length ≤ n →
      findMount disks p
        = (mountCandidates p).findSome?
            (fun c => disks.find? (fun d => d.mount_point == c)) := by
    intro n
    induction n with
    | zero =>
      intro p hp
      have hnil : p = [] := List.length_eq_zero.mp (Nat.le_zero.mp hp)
      subst hnil
      simp only [findMount, mountCandidates, List.findSome?_cons, List.findSome?_nil]
      cases hfd : disks.find? (fun d => d.mount_point == ([] : List String)) <;>
        simp [hfd]
    | succ n ih =>
      intro p hp
      cases p with
      | nil =>
        simp only [findMount, mountCandidates, List.findSome?_cons, List.findSome?_nil]
        cases hfd : disks.find? (fun d => d.mount_point == ([] : List String)) <;>
          simp [hfd]
      | cons a as =>
        simp only [findMount, mountCandidates, List.findSome?_cons]
        cases hfd : disks.find? (fun d => d.mount_point == a :: as) with
        | some d => simp [hfd]
        | none =>
          simp only [hfd]
          exact ih (a :: as).dropLast
            (by simpa [List.length_dropLast] using Nat.le_of_succ_le_succ hp)
  refine ⟨main path.length path le_rfl, ?_⟩
  rw [main path.length path le_rfl, List.findSome?_eq_none_iff]
  constructor
  · intro h c hc d hd
    have hfd := h c hc
    rw [List.find?_eq_none] at hfd
    simpa using hfd d hd
  · intro h c hc
    rw [List.find?_eq_none]
    intro d hd
    simpa using h c hc d hd

end DiskProtection
